import Mathlib

/-!
Shallow embedding of the spotify-wallpaper poller (`spotify-album-art.js`)
and the parts of its Electron display launcher needed to settle the claims:
color extraction (`extractColors`), image-cache cleanup (`cleanupOldImages`),
the display-process launcher (`launchElectronApp`), token refresh
(`refreshTokenIfNeeded`), startup initialization (`initializeSpotify`) and
the per-poll-cycle driver (`fetchAndDisplay`).
External effects (Spotify API calls, file downloads, palette extraction,
process spawning, file deletion) are modelled by explicit outcome values
supplied through environment records, mirroring the JS control flow
branch by branch.
-/

namespace SpotifyWallpaper

/-- An RGB triple as produced by `swatch.getRgb()` in the JS source. -/
def Color := Nat × Nat × Nat

instance : DecidableEq Color := by
  unfold Color
  infer_instance

/-- The palette object returned by `Vibrant.from(imagePath).getPalette()`:
each of the six swatch roles may or may not be populated
(`if (palette[key])` in the source treats a missing role as skipped). -/
structure Palette where
  vibrant : Option Color
  muted : Option Color
  darkVibrant : Option Color
  darkMuted : Option Color
  lightVibrant : Option Color
  lightMuted : Option Color
deriving DecidableEq

/-- The `for (const key of colorKeys)` loop of `extractColors`: collect the
populated swatches in the fixed order
Vibrant, Muted, DarkVibrant, DarkMuted, LightVibrant, LightMuted. -/
def foundColors (p : Palette) : List Color :=
  [p.vibrant, p.muted, p.darkVibrant, p.darkMuted, p.lightVibrant, p.lightMuted].filterMap id

/-- The `while (colors.length < 4) colors.push(...colors)` loop of
`extractColors`, modelled with explicit fuel: one unit of fuel per loop
iteration.  `none` means the loop is still running when the fuel runs out;
the JS loop diverges exactly when every fuel bound yields `none`. -/
def dupLoop : Nat → List Color → Option (List Color)
  | 0, cs => if cs.length < 4 then none else some cs
  | fuel + 1, cs => if cs.length < 4 then dupLoop fuel (cs ++ cs) else some cs

/-- The fixed fallback palette returned by the `catch` branch of
`extractColors`: red, green, blue, yellow. -/
def fallbackColors : List Color :=
  [(255, 0, 0), (0, 255, 0), (0, 0, 255), (255, 255, 0)]

/-- The function `extractColors` from the source.  Its input is the outcome of
`Vibrant.from(imagePath).getPalette()`: `Except.error` when the extractor
throws (handled by the `catch` branch), `Except.ok` with the palette
otherwise.  On success the found colors run through the duplication loop
(fuelled, see `dupLoop`) and are truncated by `colors.slice(0, 6)`. -/
def extractColors (fuel : Nat) (res : Except Unit Palette) : Option (List Color) :=
  match res with
  | .error _ => some fallbackColors
  | .ok p => (dupLoop fuel (foundColors p)).map (fun cs => cs.take 6)

/-- The palette whose six swatch roles are all unpopulated. -/
def emptyPalette : Palette :=
  ⟨none, none, none, none, none, none⟩

/-- The duplication loop of `extractColors` never finishes on an empty
color list, whatever fuel it is given: `colors.push(...colors)` adds
nothing when `colors` is empty, so `colors.length < 4` stays true. -/
def extractDivergesOnEmpty : Prop :=
  ∀ fuel : Nat, extractColors fuel (.ok emptyPalette) = none

/-- JS truthiness test for a possibly-absent string: `null`/`undefined`
and the empty string are falsy (the source guards track IDs and URLs with
plain `if (!x)` checks). -/
def jsFalsyStr : Option String → Bool
  | none => true
  | some s => s = ""

/-- One entry of `album.images`: its `url` field may be absent. -/
structure Image where
  url : Option String
deriving DecidableEq

/-- The track object used by `fetchAndDisplay`: its `id` (nullable in the
Spotify data model), display metadata and the album image list. -/
structure Track where
  id : Option String
  name : String
  artists : List String
  albumName : String
  images : List Image
deriving DecidableEq

/-- Outcome of one awaited Spotify API call: either a body value or a
thrown error carrying an optional HTTP status code. -/
inductive ApiOutcome (α : Type) where
  | ok (val : α)
  | err (statusCode : Option Nat)
deriving DecidableEq

deriving instance DecidableEq for Except

/-- Environment of one `fetchAndDisplay` cycle: the outcome of each
external call the cycle can make, in source order.  `ok none` for the two
track endpoints means a response without a usable item
(`!currentlyPlaying.body.item` resp. an empty `items` array).  The
`...RefreshOk` fields give the outcome of the `refreshAccessToken` attempt
made inside `refreshTokenIfNeeded` at the corresponding catch site. -/
structure FetchEnv where
  currentlyPlaying : ApiOutcome (Option Track)
  cpRefreshOk : Bool
  currentlyPlayingRetry : ApiOutcome (Option Track)
  recentlyPlayed : ApiOutcome (Option Track)
  rpRefreshOk : Bool
  recentlyPlayedRetry : ApiOutcome (Option Track)
  downloadOk : Bool
  palette : Except Unit Palette
  audioFeatures : ApiOutcome (Option Unit)
  afRefreshOk : Bool
  audioFeaturesRetry : ApiOutcome (Option Unit)
deriving DecidableEq

/-- The helper `refreshTokenIfNeeded` from the source: attempts a token refresh only
when the triggering error is a 401; returns whether a refresh succeeded.
A failed refresh is caught, logged ("Re-authentication required. Please
restart the service.") and reported as `false` — the function never
invokes the `authenticate` flow. -/
def refreshTokenIfNeeded (statusCode : Option Nat) (refreshOk : Bool) : Bool :=
  if statusCode = some 401 then refreshOk else false

/-- Observable result of one `fetchAndDisplay` cycle:
the returned track ID, whether `launchElectronApp` was invoked (it always
writes the shared `update.json` record, so `published` = the update record
was written), the artwork URL passed to `downloadImage` (if any download
was attempted), the audio-features value stored in the record, and the
number of times the full `authenticate` authorization flow ran during the
cycle. -/
structure CycleResult where
  ret : Option String
  published : Bool
  downloadedUrl : Option String
  audioFeaturesUsed : Option Unit
  authCalls : Nat
deriving DecidableEq

/-- Outcome of the currently-playing section of `fetchAndDisplay`. -/
inductive Phase1Result where
  | p1Return
  | p1Track (t : Option Track)
deriving DecidableEq

/-- The first `try`/`catch` of `fetchAndDisplay`
(`getMyCurrentPlayingTrack`): on success take `body.item` if present; on a
401 run `refreshTokenIfNeeded` and, if it refreshed, retry once (a failed
retry falls through with no track); if the refresh failed, return
`lastTrackId` early; any non-401 error falls through to the
recently-played fallback with no track. -/
def phase1 (env : FetchEnv) : Phase1Result :=
  match env.currentlyPlaying with
  | .ok item => .p1Track item
  | .err code =>
    if code = some 401 then
      if refreshTokenIfNeeded code env.cpRefreshOk then
        match env.currentlyPlayingRetry with
        | .ok item => .p1Track item
        | .err _ => .p1Track none
      else .p1Return
    else .p1Track none

/-- Outcome of the recently-played fallback section. -/
inductive Phase2Result where
  | p2Return
  | p2Track (t : Track)
deriving DecidableEq

/-- The recently-played fallback of `fetchAndDisplay`
(`getMyRecentlyPlayedTracks({ limit: 1 })`), reached only when no track
was found yet: empty `items` returns `lastTrackId`; a 401 triggers one
refresh-and-retry (any failure along that path returns `lastTrackId`); a
non-401 error returns `lastTrackId`. -/
def phase2 (env : FetchEnv) : Phase2Result :=
  match env.recentlyPlayed with
  | .ok none => .p2Return
  | .ok (some t) => .p2Track t
  | .err code =>
    if code = some 401 then
      if refreshTokenIfNeeded code env.rpRefreshOk then
        match env.recentlyPlayedRetry with
        | .ok (some t) => .p2Track t
        | .ok none => .p2Return
        | .err _ => .p2Return
      else .p2Return
    else .p2Return

/-- The selection `album.images[0]?.url || album.images[album.images.length - 1]?.url`:
the first image's URL when truthy, otherwise the last image's URL. -/
def selectArtUrl (images : List Image) : Option String :=
  let first := images.head?.bind Image.url
  if jsFalsyStr first then images.getLast?.bind Image.url else first

/-- The audio-features section of `fetchAndDisplay`: the features value
stored in the update record.  Every error is caught here: a 401 triggers
one refresh-and-retry, every other status (403, 404, anything) is logged
and the cycle continues with `audioFeatures = null`. -/
def afResult (env : FetchEnv) : Option Unit :=
  match env.audioFeatures with
  | .ok v => v
  | .err code =>
    if code = some 401 ∧ refreshTokenIfNeeded code env.afRefreshOk then
      match env.audioFeaturesRetry with
      | .ok v => v
      | .err _ => none
    else none

/-- The tail of `fetchAndDisplay` once a track `t` was observed:
falsy-ID and same-ID checks, artwork URL selection, download (a download
error propagates to the outer catch, which returns `lastTrackId`), color
extraction (`none` when the duplication loop exceeds the fuel, i.e. the
cycle hangs), audio features, cleanup, then `launchElectronApp` (the
publish) and return of the new ID.  The `authenticate` flow is never
invoked anywhere in the cycle, so `authCalls` is 0 in every branch. -/
def phase3 (env : FetchEnv) (fuel : Nat) (t : Track) (last : Option String) :
    Option CycleResult :=
  if jsFalsyStr t.id then some ⟨last, false, none, none, 0⟩
  else if t.id = last then some ⟨last, false, none, none, 0⟩
  else
    let url := selectArtUrl t.images
    if jsFalsyStr url then some ⟨t.id, false, none, none, 0⟩
    else if ¬env.downloadOk then some ⟨last, false, url, none, 0⟩
    else
      match extractColors fuel env.palette with
      | none => none
      | some _cols => some ⟨t.id, true, url, afResult env, 0⟩

/-- The function `fetchAndDisplay` from the source, as a function of the cycle's
environment, the duplication-loop fuel and the stored previous track ID.
`none` models the cycle hanging inside the color-duplication loop. -/
def fetchAndDisplay (env : FetchEnv) (fuel : Nat) (last : Option String) :
    Option CycleResult :=
  match phase1 env with
  | .p1Return => some ⟨last, false, none, none, 0⟩
  | .p1Track (some t) => phase3 env fuel t last
  | .p1Track none =>
    match phase2 env with
    | .p2Return => some ⟨last, false, none, none, 0⟩
    | .p2Track t => phase3 env fuel t last

/-- The track a cycle ends up working with, if any: the currently-playing
item when present, otherwise the recently-played fallback's track. -/
def observedTrack (env : FetchEnv) : Option Track :=
  match phase1 env with
  | .p1Return => none
  | .p1Track (some t) => some t
  | .p1Track none =>
    match phase2 env with
    | .p2Return => none
    | .p2Track t => some t

/-- Environment of `initializeSpotify` at startup: whether a token file
exists, whether the interactive `authenticate` flow succeeds when run,
the outcome of the `getMe()` probe and of the refresh attempt. -/
structure InitEnv where
  hasTokens : Bool
  authOk : Bool
  getMe : ApiOutcome Unit
  refreshOk : Bool
deriving DecidableEq

/-- How `initializeSpotify` can fail. -/
inductive InitErr where
  | authFailed
  | apiErr (code : Option Nat)
deriving DecidableEq

/-- The function `initializeSpotify` from the source: with no saved tokens, run
`authenticate` once; probe with `getMe()`; on a 401 try one refresh and,
only if the refresh fails, fall back to running `authenticate` once; a
non-401 probe error is rethrown.  Returns the number of `authenticate`
invocations plus the failure, if any. -/
def initializeSpotify (env : InitEnv) : Nat × Option InitErr :=
  if ¬env.hasTokens ∧ ¬env.authOk then (1, some .authFailed)
  else
    let a0 := if env.hasTokens then 0 else 1
    match env.getMe with
    | .ok _ => (a0, none)
    | .err code =>
      if code = some 401 then
        if env.refreshOk then (a0, none)
        else if env.authOk then (a0 + 1, none) else (a0 + 1, some .authFailed)
      else (a0, some (.apiErr code))

/-- The duplication loop makes no progress on an empty list. -/
theorem dupLoop_nil (fuel : Nat) : dupLoop fuel [] = none := by
  induction fuel with
  | zero => simp [dupLoop]
  | succ f ih => simp [dupLoop, ih]

/-- Whenever the duplication loop returns, the result has at least 4 colors
(the loop only exits once `colors.length < 4` fails). -/
theorem dupLoop_length (fuel : Nat) :
    ∀ cs r : List Color, dupLoop fuel cs = some r → 4 ≤ r.length := by
  induction fuel with
  | zero =>
    intro cs r h
    unfold dupLoop at h
    split at h
    · exact absurd h (by simp)
    · cases h
      omega
  | succ f ih =>
    intro cs r h
    unfold dupLoop at h
    split at h
    · exact ih _ _ h
    · cases h
      omega

/-- A list that already has at least 4 colors passes through the loop
unchanged, for every fuel bound. -/
theorem dupLoop_of_ge_four (cs : List Color) (h : 4 ≤ cs.length) (fuel : Nat) :
    dupLoop fuel cs = some cs := by
  cases fuel with
  | zero => simp [dupLoop, Nat.not_lt.mpr h]
  | succ f => simp [dupLoop, Nat.not_lt.mpr h]

/-- On a non-empty color list the duplication loop finishes within 2
iterations: each pass doubles the length, so 1 → 2 → 4. -/
theorem dupLoop_total_of_pos (cs : List Color) (h : 1 ≤ cs.length)
    (fuel : Nat) (hf : 2 ≤ fuel) : ∃ r, dupLoop fuel cs = some r := by
  obtain ⟨f, rfl⟩ : ∃ f, fuel = f + 2 := ⟨fuel - 2, by omega⟩
  by_cases h4 : cs.length < 4
  · show ∃ r, dupLoop (f + 1 + 1) cs = some r
    rw [dupLoop]
    simp only [h4, if_true]
    by_cases h4' : (cs ++ cs).length < 4
    · rw [dupLoop]
      simp only [h4', if_true]
      have hlen : 4 ≤ ((cs ++ cs) ++ (cs ++ cs)).length := by
        simp only [List.length_append]
        simp only [List.length_append] at h4'
        omega
      exact ⟨_, dupLoop_of_ge_four _ hlen f⟩
    · rw [dupLoop]
      simp only [h4', if_false]
      exact ⟨_, rfl⟩
  · exact ⟨cs, dupLoop_of_ge_four _ (Nat.not_lt.mp h4) _⟩

/-- C2 is false as stated: a palette-extractor result that populates zero of
the six swatch roles sends `extractColors` into the
`while (colors.length < 4) colors.push(...colors)` loop with an empty
list, which never grows — the function never returns a sequence at all
(modelled as `none` for every fuel bound), rather than a sequence of
length in [4,6]. -/
theorem claim2_counterexample :
    extractDivergesOnEmpty ∧ foundColors emptyPalette = [] := by
  constructor
  · intro fuel
    show (dupLoop fuel (foundColors emptyPalette)).map (fun cs => cs.take 6) = none
    have : foundColors emptyPalette = [] := rfl
    rw [this, dupLoop_nil]
    rfl
  · rfl

/-- C2 (amended): for every palette-extractor result that populates at
least 1 but fewer than 4 of the 6 swatch roles, `extractColors` returns a
color sequence whose length is at least 4 and at most 6, obtained by
repeatedly doubling the found colors until at least 4 are present and then
truncating to at most 6.  (The zero-populated case instead never
terminates, see the counterexample.) -/
theorem claim2_amended (p : Palette) (fuel : Nat)
    (h1 : 1 ≤ (foundColors p).length) (_hlt : (foundColors p).length < 4)
    (hf : 2 ≤ fuel) :
    ∃ cs, extractColors fuel (.ok p) = some cs ∧ 4 ≤ cs.length ∧ cs.length ≤ 6 := by
  obtain ⟨r, hr⟩ := dupLoop_total_of_pos (foundColors p) h1 fuel hf
  have hlen := dupLoop_length fuel _ _ hr
  refine ⟨r.take 6, ?_, ?_, ?_⟩
  · show (dupLoop fuel (foundColors p)).map (fun cs => cs.take 6) = some (r.take 6)
    rw [hr]
    rfl
  · rw [List.length_take]
    omega
  · rw [List.length_take]
    omega

/-- Witness for the amended C2 at a palette with exactly one populated
role and fuel 2. -/
theorem claim2_witness :
    ∃ cs, extractColors 2 (.ok ⟨some (1, 2, 3), none, none, none, none, none⟩) = some cs ∧
      4 ≤ cs.length ∧ cs.length ≤ 6 :=
  claim2_amended ⟨some (1, 2, 3), none, none, none, none, none⟩ 2
    (by decide) (by decide) (by decide)

/-- C6: whenever the palette extractor throws, `extractColors` returns
exactly the fixed 4-color fallback sequence red, green, blue, yellow, so
the output is never empty. -/
theorem claim6_fallback (fuel : Nat) :
    extractColors fuel (.error ()) = some fallbackColors ∧
    fallbackColors = [(255, 0, 0), (0, 255, 0), (0, 0, 255), (255, 255, 0)] ∧
    fallbackColors.length = 4 ∧ fallbackColors ≠ [] := by
  refine ⟨rfl, rfl, rfl, by decide⟩

/-- C9: when the palette populates at least one swatch role, the color
duplication loop of `extractColors` terminates (within fuel 2, since the
list length strictly increases by doubling each iteration); and doubling a
non-empty list does strictly increase its length. -/
theorem claim9_termination (p : Palette) (fuel : Nat)
    (h : foundColors p ≠ []) (hf : 2 ≤ fuel) :
    (extractColors fuel (.ok p)).isSome = true ∧
    (∀ cs : List Color, cs ≠ [] → cs.length < (cs ++ cs).length) := by
  constructor
  · have h1 : 1 ≤ (foundColors p).length := by
      cases hcs : foundColors p with
      | nil => exact absurd hcs h
      | cons a tl => simp
    obtain ⟨r, hr⟩ := dupLoop_total_of_pos (foundColors p) h1 fuel hf
    show ((dupLoop fuel (foundColors p)).map (fun cs => cs.take 6)).isSome = true
    rw [hr]
    rfl
  · intro cs hcs
    rw [List.length_append]
    cases cs with
    | nil => exact absurd rfl hcs
    | cons a tl => simp

/-- Witness for C9 at a palette with one populated role and fuel 2. -/
theorem claim9_witness :
    (extractColors 2 (.ok ⟨some (9, 9, 9), none, none, none, none, none⟩)).isSome = true ∧
    (∀ cs : List Color, cs ≠ [] → cs.length < (cs ++ cs).length) :=
  claim9_termination ⟨some (9, 9, 9), none, none, none, none, none⟩ 2
    (by decide) (by decide)

/-- A truthy optional string is not `none`. -/
theorem ne_none_of_truthy (o : Option String) (h : jsFalsyStr o = false) :
    o ≠ none := by
  intro he
  subst he
  simp [jsFalsyStr] at h

/-- The cycle `fetchAndDisplay` factored through `observedTrack`: a cycle that finds
no track returns `lastTrackId` with no publish, otherwise the tail of the
cycle runs on the observed track. -/
theorem fetchAndDisplay_eq (env : FetchEnv) (fuel : Nat) (last : Option String) :
    fetchAndDisplay env fuel last =
      match observedTrack env with
      | none => some ⟨last, false, none, none, 0⟩
      | some t => phase3 env fuel t last := by
  cases h1 : phase1 env with
  | p1Return => simp [fetchAndDisplay, observedTrack, h1]
  | p1Track o =>
    cases o with
    | some t => simp [fetchAndDisplay, observedTrack, h1]
    | none =>
      cases h2 : phase2 env with
      | p2Return => simp [fetchAndDisplay, observedTrack, h1, h2]
      | p2Track t => simp [fetchAndDisplay, observedTrack, h1, h2]

/-- Characterization of when the tail of a cycle publishes: exactly when
the observed track has a truthy ID that differs from the previous one, an
artwork URL is selected, and the download succeeds. -/
theorem phase3_published_iff (env : FetchEnv) (fuel : Nat) (t : Track)
    (last : Option String) (r : CycleResult)
    (h : phase3 env fuel t last = some r) :
    (r.published = true ↔
      jsFalsyStr t.id = false ∧ t.id ≠ last ∧
        jsFalsyStr (selectArtUrl t.images) = false ∧ env.downloadOk = true) := by
  cases h1 : jsFalsyStr t.id with
  | true =>
    simp [phase3, h1] at h
    subst h
    simp [h1]
  | false =>
    by_cases h2 : t.id = last
    · simp [phase3, h1, h2] at h
      subst h
      simp [h2]
    · cases h3 : jsFalsyStr (selectArtUrl t.images) with
      | true =>
        simp [phase3, h1, h2, h3] at h
        subst h
        simp [h3]
      | false =>
        cases h4 : env.downloadOk with
        | false =>
          simp [phase3, h1, h2, h3, h4] at h
          subst h
          simp [h4]
        | true =>
          cases hext : extractColors fuel env.palette with
          | none => simp [phase3, h1, h2, h3, h4, hext] at h
          | some cols =>
            simp [phase3, h1, h2, h3, h4, hext] at h
            subst h
            simp [h1, h2, h3, h4]

/-- A cycle whose observed track carries the stored ID returns the stored
ID and publishes nothing. -/
theorem phase3_same (env : FetchEnv) (fuel : Nat) (t : Track)
    (last : Option String) (hid : t.id = last) :
    phase3 env fuel t last = some ⟨last, false, none, none, 0⟩ := by
  cases hf : jsFalsyStr t.id with
  | true => simp [phase3, hf]
  | false => simp [phase3, hf, hid]

/-- The tail of a cycle never runs the `authenticate` flow. -/
theorem phase3_authCalls (env : FetchEnv) (fuel : Nat) (t : Track)
    (last : Option String) (r : CycleResult)
    (h : phase3 env fuel t last = some r) : r.authCalls = 0 := by
  cases h1 : jsFalsyStr t.id with
  | true =>
    simp [phase3, h1] at h
    subst h
    rfl
  | false =>
    by_cases h2 : t.id = last
    · simp [phase3, h1, h2] at h
      subst h
      rfl
    · cases h3 : jsFalsyStr (selectArtUrl t.images) with
      | true =>
        simp [phase3, h1, h2, h3] at h
        subst h
        rfl
      | false =>
        cases h4 : env.downloadOk with
        | false =>
          simp [phase3, h1, h2, h3, h4] at h
          subst h
          rfl
        | true =>
          cases hext : extractColors fuel env.palette with
          | none => simp [phase3, h1, h2, h3, h4, hext] at h
          | some cols =>
            simp [phase3, h1, h2, h3, h4, hext] at h
            subst h
            rfl

/-- A cycle that observes track `t` runs the tail of the cycle on it. -/
theorem fetchAndDisplay_of_observed_some (env : FetchEnv) (fuel : Nat)
    (last : Option String) (t : Track) (h : observedTrack env = some t) :
    fetchAndDisplay env fuel last = phase3 env fuel t last := by
  rw [fetchAndDisplay_eq, h]

/-- A cycle that observes no track returns the previous ID, publishing
nothing. -/
theorem fetchAndDisplay_of_observed_none (env : FetchEnv) (fuel : Nat)
    (last : Option String) (h : observedTrack env = none) :
    fetchAndDisplay env fuel last = some ⟨last, false, none, none, 0⟩ := by
  rw [fetchAndDisplay_eq, h]

/-- A track whose album image list is empty: the cycle that observes it
finds no artwork URL. -/
def noArtTrack : Track :=
  ⟨some "t1", "song", ["artist"], "album", []⟩

/-- A palette with a single populated swatch role. -/
def onePalette : Palette :=
  ⟨some (1, 2, 3), none, none, none, none, none⟩

/-- Cycle environment in which the currently-playing call returns a track
with an empty image list. -/
def noArtEnv : FetchEnv :=
  ⟨.ok (some noArtTrack), false, .ok none, .ok none, false, .ok none,
    true, .ok onePalette, .ok none, false, .ok none⟩

/-- C1 is false as stated: in the cycle `noArtEnv` with previous ID
`none`, the observed track ID `"t1"` differs from the stored previous ID,
yet no update record is written (`published = false`) — the cycle hits the
`if (!albumArtUrl)` early return, which still carries the new ID forward.
So "publishes a new update record ... if and only if the track ID differs"
fails in both readings: the ID differs without a publish, and the new ID
is returned without a publish. -/
theorem claim1_counterexample :
    fetchAndDisplay noArtEnv 4 none = some ⟨some "t1", false, none, none, 0⟩ ∧
    (some "t1" : Option String) ≠ none := by
  exact ⟨rfl, by decide⟩

/-- C1 (amended): a cycle publishes the update record if and only if the
observed track has a truthy ID that differs from the stored previous ID
AND an artwork URL is selected from its image list AND the download
succeeds; when the observed ID equals the previous ID, no publish occurs
and the previous ID is returned unchanged; and on the first invocation
(previous ID `none`) any observed track with a truthy ID counts as a
change. -/
theorem claim1_amended (env : FetchEnv) (fuel : Nat) (last : Option String)
    (r : CycleResult) (t : Track)
    (h : fetchAndDisplay env fuel last = some r) :
    (r.published = true ↔ ∃ t', observedTrack env = some t' ∧
        jsFalsyStr t'.id = false ∧ t'.id ≠ last ∧
        jsFalsyStr (selectArtUrl t'.images) = false ∧ env.downloadOk = true) ∧
    (observedTrack env = some t → t.id = last →
        r.published = false ∧ r.ret = last) ∧
    (last = none → observedTrack env = some t → jsFalsyStr t.id = false →
        t.id ≠ last) := by
  refine ⟨?_, ?_, ?_⟩
  · cases ho : observedTrack env with
    | none =>
      rw [fetchAndDisplay_of_observed_none env fuel last ho] at h
      cases h
      simp
    | some t' =>
      rw [fetchAndDisplay_of_observed_some env fuel last t' ho] at h
      rw [phase3_published_iff env fuel t' last r h]
      constructor
      · intro hc
        exact ⟨t', rfl, hc⟩
      · rintro ⟨t'', ht'', hc⟩
        cases ht''
        exact hc
  · intro ht hid
    rw [fetchAndDisplay_of_observed_some env fuel last t ht] at h
    rw [phase3_same env fuel t last hid] at h
    cases h
    exact ⟨rfl, rfl⟩
  · intro hlast _ hf
    subst hlast
    exact ne_none_of_truthy _ hf

/-- A track with a usable artwork URL. -/
def goodTrack : Track :=
  ⟨some "b2", "song2", ["artist2"], "album2", [⟨some "http-u"⟩]⟩

/-- Cycle environment of a successful publish: the currently-playing call
returns `goodTrack`, the download succeeds and the palette has a color. -/
def pubEnv : FetchEnv :=
  ⟨.ok (some goodTrack), false, .ok none, .ok none, false, .ok none,
    true, .ok onePalette, .ok none, false, .ok none⟩

/-- Witness for the amended C1: in the publishing cycle `pubEnv` the
published result satisfies the change-and-artwork condition. -/
theorem claim1_witness :
    ∃ t', observedTrack pubEnv = some t' ∧
      jsFalsyStr t'.id = false ∧ t'.id ≠ (none : Option String) ∧
      jsFalsyStr (selectArtUrl t'.images) = false ∧ pubEnv.downloadOk = true :=
  ((claim1_amended pubEnv 4 none ⟨some "b2", true, some "http-u", none, 0⟩
    goodTrack rfl).1).mp rfl

/-- Cycle environment in which the currently-playing call fails with a 401
and the token refresh attempt fails. -/
def authFailEnv : FetchEnv :=
  ⟨.err (some 401), false, .ok none, .ok none, false, .ok none,
    true, .ok onePalette, .ok none, false, .ok none⟩

/-- C3 is false as stated: in a poll cycle whose API call fails with a 401
and whose single token-refresh attempt also fails, the cycle simply
returns the stored previous ID — the full authorization flow is run zero
times during the cycle, not exactly once.  (The source's
`refreshTokenIfNeeded` logs "Re-authentication required. Please restart
the service." and returns `false`; only startup initialization ever falls
back to `authenticate`.) -/
theorem claim3_counterexample :
    fetchAndDisplay authFailEnv 4 (some "x") = some ⟨some "x", false, none, none, 0⟩ ∧
    (fetchAndDisplay authFailEnv 4 (some "x")).map CycleResult.authCalls ≠ some 1 := by
  exact ⟨rfl, by decide⟩

/-- C3 (amended): when an API call in a poll cycle fails with a 401 and
the single token-refresh attempt fails, the cycle aborts early, returning
the previous ID with no publish, and the full authorization flow is
triggered zero times within the cycle (never looped); the fallback to the
full authorization flow exists only in startup initialization, where a 401
from the probe followed by a failed refresh triggers `authenticate`
exactly once. -/
theorem claim3_amended (env : FetchEnv) (fuel : Nat) (last : Option String)
    (ienv : InitEnv)
    (hcp : env.currentlyPlaying = .err (some 401)) (hr : env.cpRefreshOk = false)
    (htok : ienv.hasTokens = true) (hme : ienv.getMe = .err (some 401))
    (hro : ienv.refreshOk = false) :
    fetchAndDisplay env fuel last = some ⟨last, false, none, none, 0⟩ ∧
    (fetchAndDisplay env fuel last).map CycleResult.authCalls = some 0 ∧
    (initializeSpotify ienv).fst = 1 := by
  have h1 : phase1 env = .p1Return := by
    simp [phase1, hcp, refreshTokenIfNeeded, hr]
  refine ⟨?_, ?_, ?_⟩
  · simp [fetchAndDisplay, h1]
  · simp [fetchAndDisplay, h1]
  · by_cases ha : ienv.authOk = true <;>
      simp [initializeSpotify, htok, hme, hro, ha]

/-- Witness for the amended C3 at the concrete failing-refresh cycle and a
startup environment with saved tokens, a 401 probe and a failing
refresh. -/
theorem claim3_witness :
    fetchAndDisplay authFailEnv 4 (some "x") = some ⟨some "x", false, none, none, 0⟩ ∧
    (fetchAndDisplay authFailEnv 4 (some "x")).map CycleResult.authCalls = some 0 ∧
    (initializeSpotify ⟨true, true, .err (some 401), false⟩).fst = 1 :=
  claim3_amended authFailEnv 4 (some "x") ⟨true, true, .err (some 401), false⟩
    rfl rfl rfl rfl rfl

/-- Cycle environment in which the currently-playing call fails with a
non-auth 500 error while the recently-played fallback succeeds with a
publishable track. -/
def nonAuthErrEnv : FetchEnv :=
  ⟨.err (some 500), false, .ok none, .ok (some goodTrack), false, .ok none,
    true, .ok onePalette, .ok none, false, .ok none⟩

/-- C7 is false as stated: a non-authentication (500) error in the
currently-playing call does not abort the cycle — the source's catch
comment says "fall back to recently played" — and here the fallback
succeeds, the cycle publishes, and the returned ID changes from `none` to
`"b2"` instead of being retained. -/
theorem claim7_counterexample :
    fetchAndDisplay nonAuthErrEnv 4 none = some ⟨some "b2", true, some "http-u", none, 0⟩ ∧
    (some 500 : Option Nat) ≠ some 401 := by
  exact ⟨rfl, by decide⟩

/-- C7 (amended): a non-authentication error in the currently-playing call
falls through to the recently-played fallback rather than aborting; a
non-authentication error in the recently-played fallback aborts the cycle,
returning the previous ID with no publish; a failing download aborts
the cycle the same way (via the outer catch), also retaining the previous
ID; and a non-authentication audio-feature error is swallowed — the
features fall back to `null` and the cycle still publishes and returns the
new track ID. -/
theorem claim7_amended (env : FetchEnv) (fuel : Nat) (last : Option String)
    (c : Option Nat) (t : Track) (hc : c ≠ some 401) :
    (env.currentlyPlaying = .err c → phase1 env = .p1Track none) ∧
    (env.recentlyPlayed = .err c → phase1 env = .p1Track none →
      fetchAndDisplay env fuel last = some ⟨last, false, none, none, 0⟩) ∧
    (env.downloadOk = false → jsFalsyStr t.id = false → t.id ≠ last →
      jsFalsyStr (selectArtUrl t.images) = false →
      phase3 env fuel t last = some ⟨last, false, selectArtUrl t.images, none, 0⟩) ∧
    (env.audioFeatures = .err c → env.downloadOk = true →
      jsFalsyStr t.id = false → t.id ≠ last →
      jsFalsyStr (selectArtUrl t.images) = false →
      (extractColors fuel env.palette).isSome = true →
      afResult env = none ∧
      phase3 env fuel t last = some ⟨t.id, true, selectArtUrl t.images, none, 0⟩) := by
  refine ⟨?_, ?_, ?_, ?_⟩
  · intro h
    simp [phase1, h, hc]
  · intro hrp hp1
    have hobs : observedTrack env = none := by
      simp [observedTrack, hp1, phase2, hrp, hc]
    exact fetchAndDisplay_of_observed_none env fuel last hobs
  · intro h4 h1 h2 h3
    simp [phase3, h1, h2, h3, h4]
  · intro haf hd h1 h2 h3 hext
    have hafres : afResult env = none := by
      simp [afResult, haf, hc]
    refine ⟨hafres, ?_⟩
    rcases Option.isSome_iff_exists.mp hext with ⟨cols, hcols⟩
    simp [phase3, h1, h2, h3, hd, hcols, hafres]

/-- Cycle environment in which both track calls fail with a non-auth 500
error and the download would fail. -/
def abortEnv : FetchEnv :=
  ⟨.err (some 500), false, .ok none, .err (some 500), false, .ok none,
    false, .ok onePalette, .ok none, false, .ok none⟩

/-- Cycle environment of a publishable track whose audio-feature call
fails with a non-auth 500 error. -/
def afErrEnv : FetchEnv :=
  ⟨.ok (some goodTrack), false, .ok none, .ok none, false, .ok none,
    true, .ok onePalette, .err (some 500), false, .ok none⟩

/-- Witness for the amended C7: falls through after the 500 on
currently-playing, aborts on the 500 from recently-played retaining
`none`, a cycle tail with a failing download retains the previous ID, and
a 500 from the audio-feature call is swallowed — features fall back to
`null` and the cycle still publishes the new track. -/
theorem claim7_witness :
    phase1 abortEnv = .p1Track none ∧
    fetchAndDisplay abortEnv 4 none = some ⟨none, false, none, none, 0⟩ ∧
    phase3 abortEnv 4 goodTrack none = some ⟨none, false, selectArtUrl goodTrack.images, none, 0⟩ ∧
    afResult afErrEnv = none ∧
    phase3 afErrEnv 4 goodTrack none = some ⟨some "b2", true, selectArtUrl goodTrack.images, none, 0⟩ := by
  have h := claim7_amended abortEnv 4 none (some 500) goodTrack (by decide)
  have h2 := (claim7_amended afErrEnv 4 none (some 500) goodTrack (by decide)).2.2.2
    rfl rfl (by decide) (by decide) (by decide) rfl
  exact ⟨h.1 rfl, h.2.1 rfl (h.1 rfl), h.2.2.1 rfl (by decide) (by decide) (by decide),
    h2.1, h2.2⟩

/-- C8: the artwork URL selected for download is the first album image's
URL; when the first entry's URL is absent the last entry's URL is used;
and when no truthy URL is selected at all, the cycle performs no download
and no publish but still carries the new track ID forward. -/
theorem claim8_artwork (images : List Image) (u : String) (env : FetchEnv)
    (fuel : Nat) (last : Option String) (t : Track) :
    (images.head?.bind Image.url = some u → u ≠ "" →
      selectArtUrl images = some u) ∧
    (images.head?.bind Image.url = none →
      selectArtUrl images = images.getLast?.bind Image.url) ∧
    (phase1 env = .p1Track (some t) → jsFalsyStr t.id = false →
      t.id ≠ last → jsFalsyStr (selectArtUrl t.images) = true →
      fetchAndDisplay env fuel last = some ⟨t.id, false, none, none, 0⟩) := by
  refine ⟨?_, ?_, ?_⟩
  · intro h hne
    simp [selectArtUrl, h, jsFalsyStr, hne]
  · intro h
    simp [selectArtUrl, h, jsFalsyStr]
  · intro hp h1 h2 h3
    have hobs : observedTrack env = some t := by
      simp [observedTrack, hp]
    rw [fetchAndDisplay_of_observed_some env fuel last t hobs]
    simp [phase3, h1, h2, h3]

/-- Witness for C8: first-URL selection, last-URL fallback, and the
no-artwork cycle that carries `"t1"` forward without publishing. -/
theorem claim8_witness :
    selectArtUrl [⟨some "u1"⟩, ⟨some "u2"⟩] = some "u1" ∧
    selectArtUrl [⟨none⟩, ⟨some "u2"⟩] =
      ([⟨none⟩, ⟨some "u2"⟩] : List Image).getLast?.bind Image.url ∧
    fetchAndDisplay noArtEnv 4 none = some ⟨some "t1", false, none, none, 0⟩ := by
  refine ⟨?_, ?_, ?_⟩
  · exact (claim8_artwork [⟨some "u1"⟩, ⟨some "u2"⟩] "u1" noArtEnv 4 none
      noArtTrack).1 rfl (by decide)
  · exact (claim8_artwork [⟨none⟩, ⟨some "u2"⟩] "u1" noArtEnv 4 none
      noArtTrack).2.1 rfl
  · exact (claim8_artwork [] "u1" noArtEnv 4 none noArtTrack).2.2 rfl
      (by decide) (by decide) rfl

/-- Handle to a spawned Electron process: its PID and whether the poller
has killed it (`electronProcess.killed`). -/
structure Proc where
  pid : Nat
  killed : Bool
deriving DecidableEq

/-- The poller's global `electronProcess` reference: at most one handle. -/
structure ElectronState where
  proc : Option Proc
deriving DecidableEq

/-- The liveness check `electronProcess && !electronProcess.killed` from the source. -/
def procLive : Option Proc → Bool
  | none => false
  | some p => !p.killed

/-- Number of Display-process handles the poller owns. -/
def ownedCount (st : ElectronState) : Nat :=
  match st.proc with
  | none => 0
  | some _ => 1

/-- Observable outcome of one `launchElectronApp` call. -/
structure LaunchResult where
  st : ElectronState
  wroteUpdate : Bool
  spawned : Bool
deriving DecidableEq

/-- The function `launchElectronApp` from the source: always writes the shared
`update.json` record first (write errors are caught and logged), then — if
a live process handle exists — resolves immediately, relying on the
Display's file watch; only with no live handle does it spawn a new
Electron process and store the fresh handle. -/
def launchElectronApp (st : ElectronState) (newPid : Nat) : LaunchResult :=
  if procLive st.proc then ⟨st, true, false⟩
  else ⟨⟨some ⟨newPid, false⟩⟩, true, true⟩

/-- C4: while the Display handle is live, a publish spawns no second
Display process — `launchElectronApp` only writes the shared update record
and returns with the state unchanged — and the number of owned Display
processes never exceeds one. -/
theorem claim4_no_second_spawn (st : ElectronState) (newPid : Nat)
    (h : procLive st.proc = true) :
    (launchElectronApp st newPid).spawned = false ∧
    (launchElectronApp st newPid).wroteUpdate = true ∧
    (launchElectronApp st newPid).st = st ∧
    ownedCount (launchElectronApp st newPid).st ≤ 1 := by
  refine ⟨?_, ?_, ?_, ?_⟩ <;> simp [launchElectronApp, h]
  cases hst : st.proc <;> simp [ownedCount, hst]

/-- Witness for C4 at a live unkilled handle. -/
theorem claim4_witness :
    (launchElectronApp ⟨some ⟨7, false⟩⟩ 8).spawned = false ∧
    (launchElectronApp ⟨some ⟨7, false⟩⟩ 8).wroteUpdate = true ∧
    (launchElectronApp ⟨some ⟨7, false⟩⟩ 8).st = ⟨some ⟨7, false⟩⟩ ∧
    ownedCount (launchElectronApp ⟨some ⟨7, false⟩⟩ 8).st ≤ 1 :=
  claim4_no_second_spawn ⟨some ⟨7, false⟩⟩ 8 rfl

/-- One entry of the cached-image directory as `cleanupOldImages` sees it:
a file name and its modification time (`stats.mtime.getTime()`). -/
structure FileEntry where
  name : String
  mtime : Nat
deriving DecidableEq

/-- Character-level sequence comparison used to model the JS
`String.prototype.startsWith` / `endsWith` checks. -/
def listIsPfx : List Char → List Char → Bool
  | [], _ => true
  | _ :: _, [] => false
  | a :: as, b :: bs => a = b && listIsPfx as bs

/-- The check `file.startsWith(p)`. -/
def strStarts (s p : String) : Bool := listIsPfx p.toList s.toList

/-- The check `file.endsWith(p)`. -/
def strEnds (s p : String) : Bool := listIsPfx p.toList.reverse s.toList.reverse

/-- The album-art filename filter of `cleanupOldImages`:
`file.startsWith('album-art-') && file.endsWith('.jpg')`. -/
def isArtFile (name : String) : Bool :=
  strStarts name "album-art-" && strEnds name ".jpg"

/-- The function `path.basename` for POSIX-style paths: the component after the last
separator. -/
def basename (p : String) : String :=
  String.mk ((p.toList.reverse.takeWhile (fun c => c ≠ '/')).reverse)

/-- Stable insertion of a file into a list sorted by modification time,
newest first (ties keep the existing order, as in the stable JS sort). -/
def insertDesc (x : FileEntry) : List FileEntry → List FileEntry
  | [] => [x]
  | y :: ys => if x.mtime ≤ y.mtime then y :: insertDesc x ys else x :: y :: ys

/-- The `.sort((a, b) => b.mtime - a.mtime)` of `cleanupOldImages`: stable
sort by modification time, newest first. -/
def sortDesc : List FileEntry → List FileEntry
  | [] => []
  | x :: xs => insertDesc x (sortDesc xs)

/-- The `for (const file of imageFiles)` loop of `cleanupOldImages`,
returning the names it attempts to delete: a file named like the current
image is always kept, the first `keepCount` other files are kept, every
later file is passed to `fs.unlinkSync` (whose failure is ignored, so the
loop always continues). -/
def cleanupLoop (cur : String) (keepCount : Nat) :
    List FileEntry → Nat → List String
  | [], _ => []
  | f :: fs, kept =>
    if f.name = cur then cleanupLoop cur keepCount fs (kept + 1)
    else if kept < keepCount then cleanupLoop cur keepCount fs (kept + 1)
    else f.name :: cleanupLoop cur keepCount fs kept

/-- The function `cleanupOldImages` from the source: filter the directory to the
album-art files, sort newest first, walk the loop, and unlink the
attempted names.  `deleteOk` tells which `fs.unlinkSync` calls succeed
(failures are swallowed: they leave the file in place but do not stop the
loop).  Returns the resulting directory and the attempted deletions. -/
def cleanupOldImages (dir : List FileEntry) (currentImagePath : String)
    (keepCount : Nat) (deleteOk : String → Bool) :
    List FileEntry × List String :=
  let imageFiles := sortDesc (dir.filter (fun f => isArtFile f.name))
  let currentFileName := basename currentImagePath
  let attempted := cleanupLoop currentFileName keepCount imageFiles 0
  let removed := attempted.filter deleteOk
  (dir.filter (fun f => f.name ∉ removed), attempted)

/-- The loop never attempts to delete a file named like the current
image. -/
theorem cleanupLoop_not_cur (cur : String) (k : Nat) (fs : List FileEntry) :
    ∀ kept, cur ∉ cleanupLoop cur k fs kept := by
  induction fs with
  | nil => intro kept; simp [cleanupLoop]
  | cons f fs ih =>
    intro kept
    by_cases h1 : f.name = cur
    · simpa [cleanupLoop, h1] using ih (kept + 1)
    · by_cases h2 : kept < k
      · simpa [cleanupLoop, h1, h2] using ih (kept + 1)
      · simp only [cleanupLoop, h1, h2, if_false, List.mem_cons]
        push_neg
        exact ⟨fun he => h1 he.symm, ih kept⟩

/-- Every name the loop attempts to delete names one of the walked
files. -/
theorem cleanupLoop_subset (cur : String) (k : Nat) (fs : List FileEntry) :
    ∀ kept, ∀ n ∈ cleanupLoop cur k fs kept, n ∈ fs.map FileEntry.name := by
  induction fs with
  | nil => intro kept n hn; simp [cleanupLoop] at hn
  | cons f fs ih =>
    intro kept n hn
    by_cases h1 : f.name = cur
    · simp only [cleanupLoop, h1, if_true] at hn
      have := ih (kept + 1) n hn
      simp only [List.map_cons, List.mem_cons]
      exact Or.inr this
    · by_cases h2 : kept < k
      · simp only [cleanupLoop, h1, h2, if_false, if_true] at hn
        have := ih (kept + 1) n hn
        simp only [List.map_cons, List.mem_cons]
        exact Or.inr this
      · simp only [cleanupLoop, h1, h2, if_false, List.mem_cons] at hn
        rcases hn with hn | hn
        · simp [hn]
        · have := ih kept n hn
          simp only [List.map_cons, List.mem_cons]
          exact Or.inr this

/-- Stable insertion permutes. -/
theorem insertDesc_perm (x : FileEntry) (l : List FileEntry) :
    (insertDesc x l).Perm (x :: l) := by
  induction l with
  | nil => simp [insertDesc]
  | cons y ys ih =>
    by_cases h : x.mtime ≤ y.mtime
    · simp only [insertDesc, h, if_true]
      exact (ih.cons y).trans (List.Perm.swap x y ys)
    · simp [insertDesc, h]

/-- Sorting permutes the directory listing. -/
theorem sortDesc_perm (l : List FileEntry) : (sortDesc l).Perm l := by
  induction l with
  | nil => simp [sortDesc]
  | cons x xs ih => exact (insertDesc_perm x (sortDesc xs)).trans (ih.cons x)

/-- A file strictly newer than everything in a sorted listing lands in
front. -/
theorem insertDesc_head (x : FileEntry) (l : List FileEntry)
    (h : ∀ y ∈ l, y.mtime < x.mtime) : insertDesc x l = x :: l := by
  cases l with
  | nil => rfl
  | cons y ys =>
    have hy : ¬ x.mtime ≤ y.mtime := by
      have := h y (by simp)
      omega
    simp [insertDesc, hy]

/-- C10: for every directory state and every `currentImagePath`,
`cleanupOldImages` never attempts to delete the file named like the
current image, every name it attempts to delete matches the album-art
pattern, files that do not match the pattern survive untouched, and any
file named like the current image survives. -/
theorem claim10_frame (dir : List FileEntry) (cur : String) (k : Nat)
    (deleteOk : String → Bool) :
    basename cur ∉ (cleanupOldImages dir cur k deleteOk).2 ∧
    (∀ n ∈ (cleanupOldImages dir cur k deleteOk).2, isArtFile n = true) ∧
    (∀ f ∈ dir, isArtFile f.name = false →
      f ∈ (cleanupOldImages dir cur k deleteOk).1) ∧
    (∀ f ∈ dir, f.name = basename cur →
      f ∈ (cleanupOldImages dir cur k deleteOk).1) := by
  have hatt : (cleanupOldImages dir cur k deleteOk).2 =
      cleanupLoop (basename cur) k
        (sortDesc (dir.filter (fun f => isArtFile f.name))) 0 := rfl
  have hart : ∀ n ∈ (cleanupOldImages dir cur k deleteOk).2, isArtFile n = true := by
    intro n hn
    rw [hatt] at hn
    have h1 := cleanupLoop_subset _ _ _ 0 n hn
    have h2 : n ∈ (dir.filter (fun f => isArtFile f.name)).map FileEntry.name :=
      ((sortDesc_perm _).map FileEntry.name).mem_iff.mp h1
    rcases List.mem_map.mp h2 with ⟨f, hf, rfl⟩
    exact (List.mem_filter.mp hf).2
  have hnotcur : basename cur ∉ (cleanupOldImages dir cur k deleteOk).2 := by
    rw [hatt]
    exact cleanupLoop_not_cur _ _ _ 0
  refine ⟨hnotcur, hart, ?_, ?_⟩
  · intro f hf hnart
    apply List.mem_filter.mpr
    refine ⟨hf, ?_⟩
    simp only [decide_eq_true_eq]
    intro hmem
    have h1 : f.name ∈ (cleanupOldImages dir cur k deleteOk).2 :=
      (List.mem_filter.mp hmem).1
    have h2 := hart _ h1
    rw [hnart] at h2
    exact absurd h2 (by simp)
  · intro f hf hcur
    apply List.mem_filter.mpr
    refine ⟨hf, ?_⟩
    simp only [decide_eq_true_eq]
    intro hmem
    have h1 : f.name ∈ (cleanupOldImages dir cur k deleteOk).2 :=
      (List.mem_filter.mp hmem).1
    rw [hcur] at h1
    exact hnotcur h1

/-- Unfolding of the directory `cleanupOldImages` leaves behind. -/
theorem cleanupOldImages_fst (dir : List FileEntry) (path : String) (k : Nat)
    (deleteOk : String → Bool) :
    (cleanupOldImages dir path k deleteOk).1 =
      dir.filter (fun f => f.name ∉
        (cleanupLoop (basename path) k
          (sortDesc (dir.filter (fun g => isArtFile g.name))) 0).filter deleteOk) := rfl

/-- Keeping only elements of a stricter filter cannot lengthen the
result. -/
theorem length_filter_mono {α : Type} (l : List α) (p q : α → Bool)
    (h : ∀ a ∈ l, p a = true → q a = true) :
    (l.filter p).length ≤ (l.filter q).length := by
  induction l with
  | nil => simp
  | cons a as ih =>
    have ih' := ih (fun b hb => h b (by simp [hb]))
    by_cases hp : p a = true
    · have hq := h a (by simp) hp
      simp only [List.filter_cons, hp, hq, if_true, List.length_cons]
      omega
    · by_cases hq : q a = true <;>
        simp only [List.filter_cons, hp, hq, Bool.false_eq_true, if_true, if_false,
          List.length_cons] <;>
        omega

/-- Core survivor bound for the cleanup loop over files that are not named
like the current image and have pairwise distinct names: at most
`keepCount - kept` of them escape deletion. -/
theorem survivors_bound (cur : String) (k : Nat) (fs : List FileEntry) :
    ∀ kept, (∀ f ∈ fs, f.name ≠ cur) → (fs.map FileEntry.name).Nodup →
      (fs.filter (fun f => f.name ∉ cleanupLoop cur k fs kept)).length ≤ k - kept := by
  induction fs with
  | nil => intro kept _ _; simp
  | cons f fs ih =>
    intro kept hcur hnd
    have hf : f.name ≠ cur := hcur f (by simp)
    have hcur' : ∀ g ∈ fs, g.name ≠ cur := fun g hg => hcur g (by simp [hg])
    have hfname : f.name ∉ fs.map FileEntry.name := by
      simp only [List.map_cons, List.nodup_cons] at hnd
      exact hnd.1
    have hnd' : (fs.map FileEntry.name).Nodup := by
      simp only [List.map_cons, List.nodup_cons] at hnd
      exact hnd.2
    by_cases h2 : kept < k
    · have hloop : cleanupLoop cur k (f :: fs) kept = cleanupLoop cur k fs (kept + 1) := by
        simp [cleanupLoop, hf, h2]
      have hfsurv : f.name ∉ cleanupLoop cur k fs (kept + 1) := fun hmem =>
        hfname (cleanupLoop_subset cur k fs (kept + 1) _ hmem)
      rw [hloop, List.filter_cons]
      have hcond : (decide (f.name ∉ cleanupLoop cur k fs (kept + 1))) = true :=
        decide_eq_true hfsurv
      rw [hcond]
      simp only [if_true, List.length_cons]
      have := ih (kept + 1) hcur' hnd'
      omega
    · have hloop : cleanupLoop cur k (f :: fs) kept =
          f.name :: cleanupLoop cur k fs kept := by
        simp [cleanupLoop, hf, h2]
      rw [hloop, List.filter_cons]
      have hcond : (decide (f.name ∉ f.name :: cleanupLoop cur k fs kept)) = false :=
        decide_eq_false (by simp)
      rw [hcond]
      simp only [Bool.false_eq_true, if_false]
      have hmono : (fs.filter
            (fun g => g.name ∉ f.name :: cleanupLoop cur k fs kept)).length ≤
          (fs.filter (fun g => g.name ∉ cleanupLoop cur k fs kept)).length := by
        apply length_filter_mono
        intro a _ ha
        simp only [decide_eq_true_eq, List.mem_cons, not_or] at ha ⊢
        exact ha.2
      have := ih kept hcur' hnd'
      omega

/-- A character list is a prefix of itself followed by anything. -/
theorem listIsPfx_append (l t : List Char) : listIsPfx l (l ++ t) = true := by
  induction l with
  | nil => rfl
  | cons a as ih => simp [listIsPfx, ih]

/-- The characters of an appended string. -/
theorem toList_append (a b : String) : (a ++ b).toList = a.toList ++ b.toList :=
  String.data_append a b

/-- The deterministic album-art filename for a track ID,
`album-art-${currentTrackId}.jpg`. -/
def artName (id : String) : String := "album-art-" ++ id ++ ".jpg"

/-- Album-art filenames match the cleanup filter. -/
theorem isArtFile_artName (id : String) : isArtFile (artName id) = true := by
  unfold isArtFile artName strStarts strEnds
  rw [Bool.and_eq_true]
  constructor
  · rw [toList_append, toList_append, List.append_assoc]
    exact listIsPfx_append _ _
  · rw [toList_append, List.reverse_append]
    exact listIsPfx_append _ _

/-- Number of album-art files in a directory state. -/
def countArt (dir : List FileEntry) : Nat :=
  (dir.filter (fun f => isArtFile f.name)).length

/-- After publishing with current image `e` (strictly newer than the rest
of the directory, uniquely named, matching the art pattern, and named by
`basename path`), `cleanupOldImages` with `keepCount = 2` and successful
deletions leaves at most 2 album-art files: `e` itself plus the most
recent other one. -/
theorem cleanup_count_le (dir' : List FileEntry) (e : FileEntry) (path : String)
    (hbn : basename path = e.name)
    (hart : isArtFile e.name = true)
    (hnd : ((e :: dir').map FileEntry.name).Nodup)
    (hnew : ∀ f ∈ dir', f.mtime < e.mtime) :
    countArt ((cleanupOldImages (e :: dir') path 2 (fun _ => true)).1) ≤ 2 := by
  have hne : e.name ∉ dir'.map FileEntry.name := by
    simp only [List.map_cons, List.nodup_cons] at hnd
    exact hnd.1
  have hnd' : (dir'.map FileEntry.name).Nodup := by
    simp only [List.map_cons, List.nodup_cons] at hnd
    exact hnd.2
  have hMcons : (e :: dir').filter (fun f => isArtFile f.name) =
      e :: dir'.filter (fun f => isArtFile f.name) := by
    rw [List.filter_cons, hart]
    simp
  have hmemM : ∀ f ∈ dir'.filter (fun f => isArtFile f.name), f ∈ dir' :=
    fun f hf => (List.mem_filter.mp hf).1
  have hsortmem : ∀ f ∈ sortDesc (dir'.filter (fun f => isArtFile f.name)), f ∈ dir' :=
    fun f hf => hmemM f ((sortDesc_perm _).mem_iff.mp hf)
  have hsorted_lt : ∀ f ∈ sortDesc (dir'.filter (fun f => isArtFile f.name)),
      f.mtime < e.mtime := fun f hf => hnew f (hsortmem f hf)
  have hsort : sortDesc ((e :: dir').filter (fun f => isArtFile f.name)) =
      e :: sortDesc (dir'.filter (fun f => isArtFile f.name)) := by
    rw [hMcons]
    show insertDesc e _ = _
    exact insertDesc_head e _ hsorted_lt
  have hloop0 : cleanupLoop e.name 2
      (e :: sortDesc (dir'.filter (fun f => isArtFile f.name))) 0 =
      cleanupLoop e.name 2 (sortDesc (dir'.filter (fun f => isArtFile f.name))) 1 := by
    simp [cleanupLoop]
  rw [cleanupOldImages_fst]
  simp only [List.filter_true, hbn, hsort, hloop0]
  unfold countArt
  rw [List.filter_comm, hMcons]
  have hperm : ((e :: dir'.filter (fun f => isArtFile f.name)).filter
        (fun f => f.name ∉ cleanupLoop e.name 2
          (sortDesc (dir'.filter (fun f => isArtFile f.name))) 1)).length =
      ((e :: sortDesc (dir'.filter (fun f => isArtFile f.name))).filter
        (fun f => f.name ∉ cleanupLoop e.name 2
          (sortDesc (dir'.filter (fun f => isArtFile f.name))) 1)).length :=
    (((sortDesc_perm _).symm.cons e).filter _).length_eq
  rw [hperm, List.filter_cons]
  have hsurvE : (decide (e.name ∉ cleanupLoop e.name 2
      (sortDesc (dir'.filter (fun f => isArtFile f.name))) 1)) = true := by
    simp only [decide_eq_true_eq]
    exact cleanupLoop_not_cur e.name 2 _ 1
  rw [hsurvE]
  simp only [if_true, List.length_cons]
  have hrest_ne : ∀ f ∈ sortDesc (dir'.filter (fun f => isArtFile f.name)),
      f.name ≠ e.name := by
    intro f hf heq
    exact hne (heq ▸ List.mem_map_of_mem FileEntry.name (hsortmem f hf))
  have hrest_nd : ((sortDesc (dir'.filter (fun f => isArtFile f.name))).map
      FileEntry.name).Nodup := by
    have h1 : ((dir'.filter (fun f => isArtFile f.name)).map FileEntry.name).Nodup :=
      List.Nodup.sublist ((List.filter_sublist _).map _) hnd'
    exact (((sortDesc_perm _).map FileEntry.name).nodup_iff).mpr h1
  have hbound := survivors_bound e.name 2 _ 1 hrest_ne hrest_nd
  omega

/-- One successful track change as `fetchAndDisplay` performs it: the new
track's art is downloaded to `temp/album-art-<id>.jpg` (a fresh write, so
its modification time `t` is newer than everything already cached;
overwriting any stale file of the same name), then
`cleanupOldImages(imagePath, 2)` runs with all deletions succeeding. -/
def changeStep (dir : List FileEntry) (id : String) (t : Nat) : List FileEntry :=
  (cleanupOldImages
    (⟨artName id, t⟩ :: dir.filter (fun f => f.name ≠ artName id))
    ("temp/" ++ artName id) 2 (fun _ => true)).1

/-- Directory states after each of a sequence of successful track changes,
with strictly increasing modification times. -/
def simulateStates : List String → List FileEntry → Nat → List (List FileEntry)
  | [], _, _ => []
  | id :: rest, dir, t =>
    changeStep dir id t :: simulateStates rest (changeStep dir id t) (t + 1)

/-- One change step keeps the art-file count at 2 or below and preserves
the well-formedness of the directory. -/
theorem changeStep_spec (dir : List FileEntry) (id : String) (t : Nat)
    (hmt : ∀ f ∈ dir, f.mtime < t)
    (hnd : (dir.map FileEntry.name).Nodup)
    (hbn : basename ("temp/" ++ artName id) = artName id) :
    countArt (changeStep dir id t) ≤ 2 ∧
    (∀ f ∈ changeStep dir id t, f.mtime < t + 1) ∧
    ((changeStep dir id t).map FileEntry.name).Nodup := by
  have hold_mem : ∀ f ∈ dir.filter (fun f => f.name ≠ artName id), f ∈ dir :=
    fun f hf => (List.mem_filter.mp hf).1
  have hold_ne : ∀ f ∈ dir.filter (fun f => f.name ≠ artName id),
      f.name ≠ artName id := by
    intro f hf
    have := (List.mem_filter.mp hf).2
    simpa using this
  have hnd0 : ((dir.filter (fun f => f.name ≠ artName id)).map FileEntry.name).Nodup :=
    List.Nodup.sublist ((List.filter_sublist _).map _) hnd
  have hndcons : (((⟨artName id, t⟩ : FileEntry) ::
      dir.filter (fun f => f.name ≠ artName id)).map FileEntry.name).Nodup := by
    simp only [List.map_cons, List.nodup_cons]
    refine ⟨?_, hnd0⟩
    intro hmem
    rcases List.mem_map.mp hmem with ⟨f, hf, hfe⟩
    exact hold_ne f hf hfe
  have hnew : ∀ f ∈ dir.filter (fun f => f.name ≠ artName id),
      f.mtime < (⟨artName id, t⟩ : FileEntry).mtime :=
    fun f hf => hmt f (hold_mem f hf)
  refine ⟨?_, ?_, ?_⟩
  · exact cleanup_count_le _ ⟨artName id, t⟩ _ hbn (isArtFile_artName id) hndcons hnew
  · intro f hf
    have hf' : f ∈ (⟨artName id, t⟩ : FileEntry) ::
        dir.filter (fun g => g.name ≠ artName id) := by
      have h0 : f ∈ ((⟨artName id, t⟩ : FileEntry) ::
          dir.filter (fun g => g.name ≠ artName id)).filter
            (fun g => g.name ∉
              (cleanupLoop (basename ("temp/" ++ artName id)) 2
                (sortDesc (((⟨artName id, t⟩ : FileEntry) ::
                  dir.filter (fun g => g.name ≠ artName id)).filter
                    (fun g => isArtFile g.name))) 0).filter (fun _ => true)) := by
        rw [← cleanupOldImages_fst]
        exact hf
      exact (List.mem_filter.mp h0).1
    rcases List.mem_cons.mp hf' with rfl | hmem
    · exact Nat.lt_succ_self t
    · have := hmt f (hold_mem f hmem)
      omega
  · have hsub : List.Sublist (changeStep dir id t)
        ((⟨artName id, t⟩ : FileEntry) ::
          dir.filter (fun g => g.name ≠ artName id)) := by
      rw [changeStep, cleanupOldImages_fst]
      exact List.filter_sublist _
    exact List.Nodup.sublist (hsub.map FileEntry.name) hndcons

/-- After every change of a well-formed change sequence the cached-image
directory holds at most 2 album-art files. -/
theorem simulate_bound (changes : List String) :
    ∀ (dir0 : List FileEntry) (t0 : Nat),
      (∀ f ∈ dir0, f.mtime < t0) → (dir0.map FileEntry.name).Nodup →
      (∀ id ∈ changes, basename ("temp/" ++ artName id) = artName id) →
      ∀ d ∈ simulateStates changes dir0 t0, countArt d ≤ 2 := by
  induction changes with
  | nil => intro dir0 t0 _ _ _ d hd; simp [simulateStates] at hd
  | cons id rest ih =>
    intro dir0 t0 hmt hnd hbn d hd
    have hspec := changeStep_spec dir0 id t0 hmt hnd (hbn id (by simp))
    simp only [simulateStates, List.mem_cons] at hd
    rcases hd with rfl | hd
    · exact hspec.1
    · exact ih (changeStep dir0 id t0) (t0 + 1) hspec.2.1 hspec.2.2
        (fun i hi => hbn i (by simp [hi])) d hd

/-- C5: for every sequence of successful track changes (each downloading a
fresh, uniquely-named image newer than the cached ones, with slash-free
track IDs so the basename is the art filename), the cached-image directory
holds at most 2 album-art files after the cleanup step of every change;
and the set of deletions the cleanup attempts does not depend on which
deletions succeed — individual deletion failures are swallowed, never
propagated, and never stop the cleanup walk. -/
theorem claim5_bounded_cache (changes : List String) (dir0 : List FileEntry)
    (t0 : Nat) (dirX : List FileEntry) (cur : String) (k : Nat)
    (d1 d2 : String → Bool)
    (hmt : ∀ f ∈ dir0, f.mtime < t0)
    (hnd : (dir0.map FileEntry.name).Nodup)
    (hbn : ∀ id ∈ changes, basename ("temp/" ++ artName id) = artName id) :
    (∀ d ∈ simulateStates changes dir0 t0, countArt d ≤ 2) ∧
    (cleanupOldImages dirX cur k d1).2 = (cleanupOldImages dirX cur k d2).2 :=
  ⟨simulate_bound changes dir0 t0 hmt hnd hbn, rfl⟩

/-- Witness for C10 on a concrete three-file directory: the cleanup never
attempts to delete the file named like the current image, a non-matching
file survives untouched, and the current image's file survives. -/
theorem claim10_witness :
    basename "temp/album-art-z.jpg" ∉
      (cleanupOldImages [⟨"album-art-z.jpg", 5⟩, ⟨"keep.txt", 1⟩, ⟨"album-art-old.jpg", 0⟩]
        "temp/album-art-z.jpg" 2 (fun _ => true)).2 ∧
    (⟨"keep.txt", 1⟩ : FileEntry) ∈
      (cleanupOldImages [⟨"album-art-z.jpg", 5⟩, ⟨"keep.txt", 1⟩, ⟨"album-art-old.jpg", 0⟩]
        "temp/album-art-z.jpg" 2 (fun _ => true)).1 ∧
    (⟨"album-art-z.jpg", 5⟩ : FileEntry) ∈
      (cleanupOldImages [⟨"album-art-z.jpg", 5⟩, ⟨"keep.txt", 1⟩, ⟨"album-art-old.jpg", 0⟩]
        "temp/album-art-z.jpg" 2 (fun _ => true)).1 := by
  have h := claim10_frame
    [⟨"album-art-z.jpg", 5⟩, ⟨"keep.txt", 1⟩, ⟨"album-art-old.jpg", 0⟩]
    "temp/album-art-z.jpg" 2 (fun _ => true)
  exact ⟨h.1, h.2.2.1 ⟨"keep.txt", 1⟩ (by simp) (by decide),
    h.2.2.2 ⟨"album-art-z.jpg", 5⟩ (by simp) (by decide)⟩

/-- Witness for C5: two successive track changes from an empty cache both
leave at most 2 art files, and a concrete cleanup attempts the same
deletions whether `unlinkSync` succeeds or fails. -/
theorem claim5_witness :
    countArt (changeStep [] "a1" 0) ≤ 2 ∧
    countArt (changeStep (changeStep [] "a1" 0) "b2" 1) ≤ 2 ∧
    (cleanupOldImages [⟨"album-art-x.jpg", 0⟩] "temp/album-art-y.jpg" 2
        (fun _ => true)).2 =
      (cleanupOldImages [⟨"album-art-x.jpg", 0⟩] "temp/album-art-y.jpg" 2
        (fun _ => false)).2 := by
  have h := claim5_bounded_cache ["a1", "b2"] [] 0
    [⟨"album-art-x.jpg", 0⟩] "temp/album-art-y.jpg" 2
    (fun _ => true) (fun _ => false)
    (by simp) (by simp) (by decide)
  refine ⟨?_, ?_, h.2⟩
  · exact h.1 _ (by simp [simulateStates])
  · exact h.1 _ (by simp [simulateStates])

end SpotifyWallpaper
